import Mathlib

/-!
Verification of the ggdu cache/refresh engine (src/ggdu.go, primary variant;
src/unnamed/part_000 is an earlier variant of the same program and is embedded
separately where a claim refers to it).

The Go program mutates a single tree of `*Folder` nodes in place.  The shallow
embedding below represents the tree as a pure rose tree and every mutating Go
method as a function from the old tree (plus its external inputs) to the new
tree.  Parent pointers are represented by the position of a node inside the
root tree: operations that walk `f.parent` in Go are modelled by functions
that take the path (list of child indices) from the root to the node.
The `save` hook is not modelled: the claims under verification never observe
it, and `save` itself is verified through its data content (see `toP`).
Machine integers (`int`, `int64`) are modelled as `Int`; none of the verified
paths exercise overflow.
-/

/-- Go struct `File` (src/ggdu.go lines 71-77).  All five fields are exported
and therefore persisted by `json.Marshal`. -/
structure File where
  ID : String
  Name : String
  Ext : String
  Size : Int
  Date : Int
deriving Repr, DecidableEq

/-- Go struct `Folder` (src/ggdu.go lines 51-69).  The first six fields are
exported (persisted); `size`, `known`, `unknown`, `folderIdx` and `path` are
the derived fields recomputed by `rebuild`.  Go's `fileIdx` is reset to an
empty map by `rebuild` and never written or read anywhere else, so it is
omitted; `parent` is represented positionally; `save` and the UI cursor
`lastIdx` are not observed by any claim. -/
inductive Folder : Type where
  | mk (ID : String) (Name : String) (Folders : List Folder) (Files : List File)
       (Date : Int) (LastUpdate : Int)
       (size : Int) (known : Int) (unknown : Int)
       (folderIdx : List (String × Folder)) (path : String)
deriving Repr

def Folder.ID : Folder → String
  | .mk x _ _ _ _ _ _ _ _ _ _ => x

def Folder.Name : Folder → String
  | .mk _ x _ _ _ _ _ _ _ _ _ => x

def Folder.Folders : Folder → List Folder
  | .mk _ _ x _ _ _ _ _ _ _ _ => x

def Folder.Files : Folder → List File
  | .mk _ _ _ x _ _ _ _ _ _ _ => x

def Folder.Date : Folder → Int
  | .mk _ _ _ _ x _ _ _ _ _ _ => x

def Folder.LastUpdate : Folder → Int
  | .mk _ _ _ _ _ x _ _ _ _ _ => x

def Folder.size : Folder → Int
  | .mk _ _ _ _ _ _ x _ _ _ _ => x

def Folder.known : Folder → Int
  | .mk _ _ _ _ _ _ _ x _ _ _ => x

def Folder.unknown : Folder → Int
  | .mk _ _ _ _ _ _ _ _ x _ _ => x

def Folder.folderIdx : Folder → List (String × Folder)
  | .mk _ _ _ _ _ _ _ _ _ x _ => x

def Folder.path : Folder → String
  | .mk _ _ _ _ _ _ _ _ _ _ x => x

/-- A freshly allocated `&Folder{}` with Go zero values in every field. -/
def Folder.empty : Folder := .mk "" "" [] [] 0 0 0 0 0 [] ""

/-- Overwrite the `path` field (Go `f.path = s`). -/
def Folder.setPath : Folder → String → Folder
  | .mk a b c d e f g h i j _, s => .mk a b c d e f g h i j s

/-- Append a file to `Files` (Go `f.Files = append(f.Files, ...)`). -/
def Folder.addFile : Folder → File → Folder
  | .mk a b c d e f g h i j k, fl => .mk a b c (d ++ [fl]) e f g h i j k

/-- Append a child folder to `Folders` (Go `f.Folders = append(f.Folders, ...)`). -/
def Folder.addFolder : Folder → Folder → Folder
  | .mk a b c d e f g h i j k, ch => .mk a b (c ++ [ch]) d e f g h i j k

/-- Overwrite `LastUpdate` (Go `f.LastUpdate = time.Now().Unix()`). -/
def Folder.setLastUpdate : Folder → Int → Folder
  | .mk a b c d e _ g h i j k, t => .mk a b c d e t g h i j k

/-- Replace the i-th child folder: models an in-place mutation of the child
reached through the parent's `Folders` slice. -/
def Folder.setChild : Folder → Nat → Folder → Folder
  | .mk a b c d e f g h i j k, n, ch => .mk a b (c.set n ch) d e f g h i j k

/-- Apply an ancestor delta: Go `parent.size += sizeChange; parent.unknown -= 1;
parent.known += 1` (src/ggdu.go lines 530-535), generalised to `n` refreshed
descendants each contributing its own walk up the parent chain. -/
def Folder.applyDelta : Folder → Int → Int → Folder
  | .mk a b c d e f g h i j k, ds, n => .mk a b c d e f (g + ds) (h + n) (i - n) j k

/-- Go `strings.Split` (structural and accumulator-based over the character
list so that concrete runs reduce inside the kernel).  `goSplitAux d cs cur
acc n` processes `cs` holding the reversed current field `cur`, the reversed
finished fields `acc`, and `n` characters of a just-matched separator still
to be consumed. -/
def goSplitAux (d : List Char) : List Char → List Char → List (List Char) → Nat → List (List Char)
  | [], cur, acc, _ => (cur.reverse :: acc).reverse
  | c :: cs, cur, acc, 0 =>
    if d.isPrefixOf (c :: cs) then goSplitAux d cs [] (cur.reverse :: acc) (d.length - 1)
    else goSplitAux d cs (c :: cur) acc 0
  | _ :: cs, cur, acc, n + 1 => goSplitAux d cs cur acc n

def goSplit (s sep : String) : List String :=
  (goSplitAux sep.toList s.toList [] [] 0).map String.mk

def digitsAux : List Char → Nat → Option Nat
  | [], acc => some acc
  | c :: cs, acc => if c.isDigit then digitsAux cs (acc * 10 + (c.toNat - 48)) else none

/-- Go `strconv.Atoi` restricted to plain decimal input (no leading plus,
no underscores), which is all this program receives. -/
def strToNat? (s : String) : Option Nat :=
  match s.toList with
  | [] => none
  | l => digitsAux l 0

def strToInt? (s : String) : Option Int :=
  match s.toList with
  | '-' :: rest => (match rest with | [] => none | l => (digitsAux l 0).map (fun n => -(n : Int)))
  | [] => none
  | l => (digitsAux l 0).map (fun n => (n : Int))

def lowerStr (s : String) : String := String.mk (s.toList.map Char.toLower)

def strEndsWith (s suffix : String) : Bool :=
  suffix.toList.reverse.isPrefixOf s.toList.reverse

/-- Go `filepath.Join` restricted to the shapes this program produces: plain
path segments with no `.`/`..`/repeated separators, so cleaning is the
identity. -/
def goJoin (a b : String) : String :=
  if a = "" then b
  else if b = "" then a
  else if strEndsWith a "/" then a ++ b
  else a ++ "/" ++ b

/-- Go `filepath.Ext`: the suffix of the name starting at its final dot,
empty if the name contains no dot. -/
def extOf (name : String) : String :=
  let parts := goSplit name "."
  if parts.length ≤ 1 then "" else "." ++ parts.getLastD ""

def delim : String := "^^^^^"

def gdriveListHeader : String :=
  "Id" ++ delim ++ "Name" ++ delim ++ "Type" ++ delim ++ "Size" ++ delim ++ "Created"

def pow10 : Nat → Int
  | 0 => 1
  | n + 1 => 10 * pow10 n

/-- Decimal literal as an exact pair (numerator, power-of-ten exponent):
models Go `strconv.ParseFloat` for the plain `a.b` decimals this program
feeds it (float64 is exact on short decimals up to the final truncation). -/
def parseDec (s : String) : Option (Int × Nat) :=
  match goSplit s "." with
  | [a] => (strToInt? a).map (fun n => (n, 0))
  | [a, b] =>
    match strToInt? a, strToNat? b with
    | some n, some fb =>
      if b.length = 0 then none
      else some (n * pow10 b.length + fb, b.length)
    | _, _ => none
  | _ => none

/-- Go `parseSize` (src/ggdu.go lines 386-417): a bare integer byte count, or
`value unit` with binary multipliers.  Go panics on anything else; the panic
is modelled as `none`. -/
def parseSize (s : String) : Option Int :=
  match goSplit s " " with
  | [x] => strToInt? x
  | [x, u] =>
    match parseDec x with
    | none => none
    | some (n, e) =>
      let mult : Option Int :=
        if lowerStr u = "b" then some 1
        else if lowerStr u = "kb" then some 1024
        else if lowerStr u = "mb" then some (1024 ^ 2)
        else if lowerStr u = "gb" then some (1024 ^ 3)
        else if lowerStr u = "tb" then some (1024 ^ 4)
        else none
      mult.map (fun m => n * m / pow10 e)
  | _ => none

/-- Days from the Unix epoch to a civil date (proleptic Gregorian, the
standard era-based algorithm used by every civil-time library). -/
def daysFromCivil (y : Int) (m d : Nat) : Int :=
  let y2 : Int := if m ≤ 2 then y - 1 else y
  let era : Int := (if 0 ≤ y2 then y2 else y2 - 399) / 400
  let yoe : Int := y2 - era * 400
  let mp : Int := ((m : Int) + 9) % 12
  let doy : Int := (153 * mp + 2) / 5 + (d : Int) - 1
  let doe : Int := yoe * 365 + yoe / 4 - yoe / 100 + doy
  era * 146097 + doe - 719468

/-- Go `parseDate` (src/ggdu.go lines 447-453): parse `YYYY-MM-DD HH:MM:SS`
(UTC, the layout given to `time.Parse`) and return the Unix timestamp.
Go panics on a malformed date; the panic is modelled as `none`. -/
def parseDate (s : String) : Option Int := do
  let [d, t] := goSplit s " " | none
  let [ys, ms, ds] := goSplit d "-" | none
  let [hs, mis, ss] := goSplit t ":" | none
  let y ← strToNat? ys
  let mo ← strToNat? ms
  let da ← strToNat? ds
  let h ← strToNat? hs
  let mi ← strToNat? mis
  let se ← strToNat? ss
  if 1 ≤ mo ∧ mo ≤ 12 ∧ 1 ≤ da ∧ da ≤ 31 ∧ h ≤ 23 ∧ mi ≤ 59 ∧ se ≤ 59 then
    some (daysFromCivil (y : Int) mo da * 86400 + (h : Int) * 3600 + (mi : Int) * 60 + (se : Int))
  else none

/-- Go `sh` (src/ggdu.go lines 367-384): on a transport failure the error is
wrapped; otherwise stdout is returned (stderr is only logged). -/
def sh (runResult : Except String String) : Except String String :=
  match runResult with
  | .error e => .error ("failed to start command: " ++ e)
  | .ok out => .ok out

/-- One step of the line loop inside `Folder.getFiles` (src/ggdu.go lines
327-360).  The Go loop mutates `f` as it goes; a panic (unknown entry type,
out-of-range field index, unparsable size or date) aborts the process with the
partially merged state, modelled here by returning the error alongside.
`LastUpdate` is set only after the loop runs to completion. -/
def mergeLines (now : Int) : Folder → List String → Folder × Option String
  | f, [] => (f.setLastUpdate now, none)
  | f, line :: rest =>
    if line = "" then mergeLines now f rest
    else
      let parts := goSplit line delim
      match parts[2]? with
      | none => (f, some "runtime error: index out of range")
      | some ty =>
        if ty = "regular" then
          match parts[0]?, parts[1]?, parts[3]?, parts[4]? with
          | some i, some n, some sz, some dt =>
            match parseSize sz, parseDate dt with
            | some szv, some dtv =>
              mergeLines now (f.addFile ⟨i, n, extOf n, szv, dtv⟩) rest
            | _, _ => (f, some "failed to parse field")
          | _, _, _, _ => (f, some "runtime error: index out of range")
        else if ty = "folder" then
          match parts[0]?, parts[1]?, parts[4]? with
          | some i, some n, some dt =>
            match parseDate dt with
            | some dtv =>
              mergeLines now (f.addFolder (.mk i n [] [] dtv 0 0 0 0 [] "")) rest
            | none => (f, some "failed to parse field")
          | _, _, _ => (f, some "runtime error: index out of range")
        else if ty = "document" ∨ ty = "shortcut" then mergeLines now f rest
        else (f, some ("unknown type of file: " ++ ty))

/-- Go `Folder.getFiles` (src/ggdu.go lines 310-365).  `cmdRes` is the
outcome of running the gdrive subprocess for this folder's identifier; the
function returns the node state after the call together with the error, if
any (`none` = the Go method returned `nil`). -/
def Folder.getFiles (now : Int) (f : Folder) (cmdRes : Except String String) :
    Folder × Option String :=
  match sh cmdRes with
  | .error e => (f, some e)
  | .ok raw =>
    let lines := goSplit raw "\n"
    let header := lines.headD ""
    if header ≠ gdriveListHeader then
      (f, some ("Unexpected header in gdrive list: " ++ header))
    else
      mergeLines now f lines.tail

def sumSizes : List Folder → Int
  | [] => 0
  | c :: cs => c.size + sumSizes cs

def sumFileSizes : List File → Int
  | [] => 0
  | fl :: fs => fl.Size + sumFileSizes fs

/-- Go `f.known` tally in `rebuild`: immediate children with
`LastUpdate >= tooOld`. -/
def countKnown (tooOld : Int) (l : List Folder) : Int :=
  (l.countP (fun c => ¬ c.LastUpdate < tooOld)).cast

/-- Go `f.unknown` tally in `rebuild`: immediate children with
`LastUpdate < tooOld`. -/
def countUnknown (tooOld : Int) (l : List Folder) : Int :=
  (l.countP (fun c => c.LastUpdate < tooOld)).cast

/-- Go map assignment `m[k] = v`: replace the binding if the key is present,
append it otherwise. -/
def idxInsert (m : List (String × Folder)) (k : String) (v : Folder) :
    List (String × Folder) :=
  if m.any (fun p => p.1 = k) then
    m.map (fun p => if p.1 = k then (k, v) else p)
  else m ++ [(k, v)]

/-- The name index built by `rebuild`'s loop (`f.folderIdx[folder.Name] = folder`). -/
def buildIdx (l : List Folder) : List (String × Folder) :=
  l.foldl (fun m c => idxInsert m c.Name c) []

mutual
/-- Go `Folder.rebuild` (src/ggdu.go lines 455-479) on a node whose `path`
field holds `p`: resets the aggregates, attaches each child (which sets the
child's path to `Join(f.path, f.Name)` — the parent's own name, exactly as
`attachChild` does), recursively rebuilds the children, then recomputes
size, known/unknown tallies and the name index from the rebuilt children. -/
def rebuildAt (tooOld : Int) : Folder → String → Folder
  | .mk id nm folders files date lu _ _ _ _ _, p =>
    let kids := rebuildKids tooOld folders (goJoin p nm)
    .mk id nm kids files date lu
      (sumSizes kids + sumFileSizes files)
      (countKnown tooOld kids) (countUnknown tooOld kids)
      (buildIdx kids) p

def rebuildKids (tooOld : Int) : List Folder → String → List Folder
  | [], _ => []
  | c :: cs, cp => rebuildAt tooOld c cp :: rebuildKids tooOld cs cp
end

/-- Go `f.rebuild()`: the method reads the node's stored `path`. -/
def Folder.rebuild (tooOld : Int) (f : Folder) : Folder :=
  rebuildAt tooOld f f.path


/-- Go struct `goDeep` (src/ggdu.go lines 481-485): `max` is the planned
count, `cur` the completed count.  The `onUpdate` callback carries no engine
data (the progress fractions of claim C4 are the `cur/max` pairs logged at
src/ggdu.go line 523, collected below in `RunOut.reports`). -/
structure GoDeep where
  max : Int
  cur : Int
deriving Repr, DecidableEq

/-- The fixed environment of a refresh: the Lister subprocess outcome keyed by
folder identifier (fed through `sh`, see `Folder.getFiles`), the current time
`now`, and the staleness cutoff `tooOld = now - refreshDelay` computed once at
process start (src/ggdu.go lines 79-80). -/
structure Env where
  lister : String → Except String String
  now : Int
  tooOld : Int

/-- Observable outcome of one `ensureData` call on a node: the node's new
state `f`, the shared deep-progress counters `g`, the total size delta
`ancSize` and refresh count `ancCnt` that the call applied to every strict
ancestor of the node (src/ggdu.go lines 530-535: each refreshed descendant
walks the whole parent chain itself, so the effects accumulate), the logged
progress pairs `(cur, max)` in order, and the number of Lister calls made. -/
structure RunOut where
  f : Folder
  g : GoDeep
  ancSize : Int
  ancCnt : Int
  reports : List (Int × Int)
  calls : Nat
deriving Repr

/-- The child loop of deep mode (src/ggdu.go lines 507-513): for each child
index, attach the child (path from parent path + parent name), recurse via
`reca`, then rebuild the parent and fire `onUpdate`.  The deltas each child
propagated into this parent's own counters are immediately overwritten by
that rebuild, so only the accumulated deltas that escape to strict ancestors
are threaded through.  Iteration count is fixed when the loop starts, matching
Go ranging over the slice; an out-of-range index never occurs (child counts
are stable during the loop) but is given Go slice-read semantics. -/
def kidsLoop (tooOld : Int) (reca : GoDeep → Folder → Except String RunOut) :
    GoDeep → Folder → List Nat → Except String RunOut
  | g, p, [] => .ok ⟨p, g, 0, 0, [], 0⟩
  | g, p, i :: rest =>
    match p.Folders[i]? with
    | none => .ok ⟨p, g, 0, 0, [], 0⟩
    | some c =>
      let c0 := c.setPath (goJoin p.path p.Name)
      match reca g c0 with
      | .error e => .error e
      | .ok r =>
        let p1 := (p.setChild i r.f).rebuild tooOld
        match kidsLoop tooOld reca r.g p1 rest with
        | .error e => .error e
        | .ok q =>
          .ok ⟨q.f, q.g, r.ancSize + q.ancSize, r.ancCnt + q.ancCnt,
               r.reports ++ q.reports, r.calls + q.calls⟩

/-- Go `Folder.ensureData` (src/ggdu.go lines 487-527).  `deepMode` is
`goDeep != nil`; `fuel` bounds the recursion depth (the Go program would
recurse forever on a Lister that keeps producing folders; every theorem
supplies enough fuel, and running out is reported as an error).  On a Lister
failure Go panics (line 495), modelled as the error outcome.  The final
ancestor walk (lines 530-535) is returned as `ancSize`/`ancCnt` and applied
by `ensureDataAux`. -/
def ensureData (E : Env) (force deepMode : Bool) : Nat → GoDeep → Folder →
    Except String RunOut
  | 0, _, _ => .error "recursion limit"
  | fuel + 1, g, f =>
    if force = false ∧ E.tooOld < f.LastUpdate then .ok ⟨f, g, 0, 0, [], 0⟩
    else
      let oldSize := f.size
      match f.getFiles E.now (E.lister f.ID) with
      | (_, some e) => .error e
      | (f1, none) =>
        if deepMode then
          let g1 : GoDeep := ⟨g.max + (f1.Folders.length : Int), g.cur⟩
          match kidsLoop E.tooOld (fun g2 c => ensureData E force true fuel g2 c) g1 f1
              (List.range f1.Folders.length) with
          | .error e => .error e
          | .ok q =>
            let p3 := if f1.Folders.length = 0 then q.f.rebuild E.tooOld else q.f
            let g3 : GoDeep := ⟨q.g.max, q.g.cur + 1⟩
            .ok ⟨p3, g3, q.ancSize + (p3.size - oldSize), q.ancCnt + 1,
                 q.reports ++ [(g3.cur, g3.max)], q.calls + 1⟩
        else
          let f2 := f1.rebuild E.tooOld
          .ok ⟨f2, g, f2.size - oldSize, 1, [], 1⟩

/-- `ensureData` on the node sitting at child-index path `path` inside the
root tree, with the ancestor walk of src/ggdu.go lines 530-535 applied to the
nodes along the path.  Returns the new root tree with the total ancestor
delta of the refresh. -/
def ensureDataAux (E : Env) (force deepMode : Bool) (fuel : Nat) (g : GoDeep) :
    Folder → List Nat → Except String (Folder × Int × Int)
  | f, [] => (ensureData E force deepMode fuel g f).map (fun r => (r.f, r.ancSize, r.ancCnt))
  | f, i :: rest =>
    match f.Folders[i]? with
    | none => .error "node not reachable at this path"
    | some c =>
      (ensureDataAux E force deepMode fuel g c rest).map
        (fun t => ((f.setChild i t.1).applyDelta t.2.1 t.2.2, t.2.1, t.2.2))

def ensureDataAt (E : Env) (force deepMode : Bool) (fuel : Nat) (g : GoDeep)
    (root : Folder) (path : List Nat) : Except String Folder :=
  (ensureDataAux E force deepMode fuel g root path).map (fun t => t.1)

mutual
/-- The size invariant of spec section 3: every folder's `size` equals the sum
of its own file sizes plus its immediate child folder sizes, recursively. -/
def sizeInvB : Folder → Bool
  | .mk _ _ folders files _ _ sz _ _ _ _ =>
    (sz == sumSizes folders + sumFileSizes files) && sizeInvList folders

def sizeInvList : List Folder → Bool
  | [] => true
  | c :: cs => sizeInvB c && sizeInvList cs
end

/-- Go `Folder.attachChild` (src/ggdu.go lines 538-541): sets the parent
back-reference (positional here) and derives the child's path as
`filepath.Join(f.path, f.Name)` — the parent's own name. -/
def Folder.attachChild (f child : Folder) : Folder :=
  child.setPath (goJoin f.path f.Name)

mutual
/-- `Folder.rebuild` of the earlier variant (src/unnamed/part_000 lines
399-424): the path is passed down explicitly and a child's path is
`filepath.Join(curPath, folder.Name)` — the child's own name. -/
def rebuildV0At (tooOld : Int) : Folder → String → Folder
  | .mk id nm folders files date lu _ _ _ _ _, curPath =>
    let kids := rebuildV0Kids tooOld folders curPath
    .mk id nm kids files date lu (sumSizes kids + sumFileSizes files)
      (countKnown tooOld kids) (countUnknown tooOld kids) (buildIdx kids) curPath

def rebuildV0Kids (tooOld : Int) : List Folder → String → List Folder
  | [], _ => []
  | c :: cs, p => rebuildV0At tooOld c (goJoin p c.Name) :: rebuildV0Kids tooOld cs p
end

/-- The persisted document: exactly the exported fields of `Folder`
(identifier, name, children, creation and last-refresh timestamps), which is
what `json.Marshal` emits and `json.Unmarshal` restores. -/
inductive PFolder : Type where
  | mk (ID : String) (Name : String) (Folders : List PFolder) (Files : List File)
       (Date : Int) (LastUpdate : Int)
deriving Repr

mutual
/-- Projection of a tree onto its persisted fields: the content of
`json.Marshal root` in Go `save` (src/ggdu.go lines 264-271). -/
def toP : Folder → PFolder
  | .mk id nm folders files date lu _ _ _ _ _ => .mk id nm (toPList folders) files date lu

def toPList : List Folder → List PFolder
  | [] => []
  | c :: cs => toP c :: toPList cs
end

mutual
/-- `json.Unmarshal` of a persisted document into a fresh `Folder` tree: the
derived fields take Go zero values. -/
def fromP : PFolder → Folder
  | .mk id nm folders files date lu => .mk id nm (fromPList folders) files date lu 0 0 0 [] ""

def fromPList : List PFolder → List Folder
  | [] => []
  | c :: cs => fromP c :: fromPList cs
end

/-- Go `load` (src/ggdu.go lines 285-306) on a readable, well-formed
snapshot: decode, re-wire the save hooks (not data-observable), set the root
path to the separator and rebuild the whole tree. -/
def load (tooOld : Int) (t : PFolder) : Folder :=
  ((fromP t).setPath "/").rebuild tooOld

/-- Go `main` startup (src/ggdu.go lines 88-102): an absent snapshot file
means an empty tree; a present snapshot is loaded, and a load error (such as
a failed deserialization of a malformed file) is escalated by `panic(err)`,
modelled as the error outcome.  Afterwards the root path is set to "/". -/
def mainStartup (tooOld : Int) (snapshot : Option (Except String PFolder)) :
    Except String Folder :=
  match snapshot with
  | none => .ok (Folder.empty.setPath "/")
  | some (.error e) => .error e
  | some (.ok t) => .ok ((load tooOld t).setPath "/")

/-- Render `num / 2 ^ e` (a value the program holds in a float32, exact there
because every division by 1024 only shifts the exponent) the way Go's
`%.1f` does: decimal rounding to one fractional digit, ties to even. -/
def fmt1 (num : Int) (e : Nat) : String :=
  let t := num * 10
  let q := t / (2 ^ e : Int)
  let r := t % (2 ^ e : Int)
  let n := if 2 * r < 2 ^ e then q else if 2 ^ e < 2 * r then q + 1
           else if q % 2 = 0 then q else q + 1
  toString (n / 10) ++ "." ++ toString (n % 10)

/-- Go `formatSize` (src/ggdu.go lines 419-445).  The first step
`f := float32(i / 1024)` is an integer division; the later steps divide the
float by 1024.  Modelled exactly for `i / 1024 < 2 ^ 24`, where float32
holds these values exactly. -/
def formatSize (i : Int) : String :=
  if i = 0 then ""
  else if i < 1024 then toString i ++ "b"
  else
    let k := i / 1024
    if k < 1024 then fmt1 k 0 ++ "kb"
    else if k < 1024 ^ 2 then fmt1 k 10 ++ "mb"
    else if k < 1024 ^ 3 then fmt1 k 20 ++ "gb"
    else fmt1 k 30 ++ "tb"

/-- The formatting rule exactly as claim C10 words it for `i ≥ 1024`: "i
repeatedly divided by 1024 and rendered to one decimal place with the suffix
for the corresponding power" — i.e. the exact quotient `i / 1024 ^ p`
rounded to one decimal, with no intermediate truncation. -/
def specFormatSize (i : Int) : String :=
  if i = 0 then ""
  else if i < 1024 then toString i ++ "b"
  else if i < 1024 ^ 2 then fmt1 i 10 ++ "kb"
  else if i < 1024 ^ 3 then fmt1 i 20 ++ "mb"
  else if i < 1024 ^ 4 then fmt1 i 30 ++ "gb"
  else fmt1 i 40 ++ "tb"

/-! ## General lemmas about the Aggregator -/

theorem rebuildAt_path (tooOld : Int) (f : Folder) (p : String) :
    (rebuildAt tooOld f p).path = p := by
  cases f
  simp [rebuildAt, Folder.path]

theorem rebuildAt_Folders_length (tooOld : Int) (f : Folder) (p : String) :
    (rebuildAt tooOld f p).Folders.length = f.Folders.length := by
  cases f with
  | mk id nm folders files date lu a b c e pp =>
    simp only [rebuildAt, Folder.Folders]
    induction folders with
    | nil => rfl
    | cons hd tl ih => simp [rebuildKids, ih]

theorem rebuildAt_size (tooOld : Int) (f : Folder) (p : String) :
    (rebuildAt tooOld f p).size =
      sumSizes (rebuildAt tooOld f p).Folders + sumFileSizes (rebuildAt tooOld f p).Files := by
  cases f
  simp [rebuildAt, Folder.size, Folder.Folders, Folder.Files]

mutual
theorem rebuildAt_sizeInv (tooOld : Int) :
    ∀ (f : Folder) (p : String), sizeInvB (rebuildAt tooOld f p) = true
  | .mk id nm folders files date lu a b c e pp, p => by
    simp [rebuildAt, sizeInvB, rebuildKids_sizeInv tooOld folders (goJoin p nm)]

theorem rebuildKids_sizeInv (tooOld : Int) :
    ∀ (l : List Folder) (cp : String), sizeInvList (rebuildKids tooOld l cp) = true
  | [], _ => rfl
  | c :: cs, cp => by
    simp only [rebuildKids, sizeInvList, Bool.and_eq_true]
    exact ⟨rebuildAt_sizeInv tooOld c cp, rebuildKids_sizeInv tooOld cs cp⟩
end

mutual
theorem rebuildAt_idem (tooOld : Int) :
    ∀ (f : Folder) (p : String),
      rebuildAt tooOld (rebuildAt tooOld f p) p = rebuildAt tooOld f p
  | .mk id nm folders files date lu a b c e pp, p => by
    simp only [rebuildAt]
    rw [rebuildKids_idem tooOld folders (goJoin p nm)]

theorem rebuildKids_idem (tooOld : Int) :
    ∀ (l : List Folder) (cp : String),
      rebuildKids tooOld (rebuildKids tooOld l cp) cp = rebuildKids tooOld l cp
  | [], _ => rfl
  | c :: cs, cp => by
    simp only [rebuildKids]
    rw [rebuildAt_idem tooOld c cp, rebuildKids_idem tooOld cs cp]
end

mutual
theorem toP_rebuildAt (tooOld : Int) :
    ∀ (f : Folder) (p : String), toP (rebuildAt tooOld f p) = toP f
  | .mk id nm folders files date lu a b c e pp, p => by
    simp only [rebuildAt, toP]
    rw [toPList_rebuildKids tooOld folders (goJoin p nm)]

theorem toPList_rebuildKids (tooOld : Int) :
    ∀ (l : List Folder) (cp : String), toPList (rebuildKids tooOld l cp) = toPList l
  | [], _ => rfl
  | c :: cs, cp => by
    simp only [rebuildKids, toPList]
    rw [toP_rebuildAt tooOld c cp, toPList_rebuildKids tooOld cs cp]
end

theorem toP_setPath (f : Folder) (s : String) : toP (f.setPath s) = toP f := by
  cases f
  simp [Folder.setPath, toP]

mutual
theorem toP_fromP : ∀ t : PFolder, toP (fromP t) = t
  | .mk id nm folders files date lu => by
    simp only [fromP, toP]
    rw [toPList_fromPList folders]

theorem toPList_fromPList : ∀ l : List PFolder, toPList (fromPList l) = l
  | [] => rfl
  | c :: cs => by
    simp only [fromPList, toPList]
    rw [toP_fromP c, toPList_fromPList cs]
end

/-- Claim C3: a failed Lister call leaves the node untouched: both error shapes of
`getFiles` (transport failure inside `sh`, unexpected header line) return
before any merge, so `Folders`, `Files` and `LastUpdate` are exactly the
input's, and the error is handed to the caller. -/
theorem getFiles_error_preserves (now : Int) (f : Folder) :
    (∀ e, f.getFiles now (.error e) = (f, some ("failed to start command: " ++ e))) ∧
    (∀ raw, (goSplit raw "\n").headD "" ≠ gdriveListHeader →
       f.getFiles now (.ok raw) =
         (f, some ("Unexpected header in gdrive list: " ++ (goSplit raw "\n").headD ""))) := by
  constructor
  · intro e
    rfl
  · intro raw hraw
    simp only [Folder.getFiles, sh]
    rw [if_pos hraw]


theorem setChild_Folders_length (f : Folder) (i : Nat) (c : Folder) :
    (f.setChild i c).Folders.length = f.Folders.length := by
  cases f
  simp [Folder.setChild, Folder.Folders]

/-- After a non-empty child loop the parent has just been rebuilt. -/
theorem kidsLoop_result (tooOld : Int) (reca : GoDeep → Folder → Except String RunOut) :
    ∀ (idxs : List Nat) (g : GoDeep) (p : Folder) (q : RunOut),
      kidsLoop tooOld reca g p idxs = .ok q →
      (∀ i ∈ idxs, i < p.Folders.length) →
      (q.f = p ∧ idxs = []) ∨ ∃ p0 pth, q.f = rebuildAt tooOld p0 pth := by
  intro idxs
  induction idxs with
  | nil =>
    intro g p q h hb
    simp only [kidsLoop] at h
    cases h
    exact Or.inl ⟨rfl, rfl⟩
  | cons i rest ih =>
    intro g p q h hb
    have hilt : i < p.Folders.length := hb i (by simp)
    simp only [kidsLoop] at h
    split at h
    · next heq =>
      exact absurd heq (by simp [List.getElem?_eq_getElem hilt])
    · next c heq =>
      split at h
      · cases h
      · next r hr =>
        split at h
        · cases h
        · next q2 hk =>
          cases h
          have hb2 : ∀ j ∈ rest, j < ((p.setChild i r.f).rebuild tooOld).Folders.length := by
            intro j hj
            rw [Folder.rebuild, rebuildAt_Folders_length, setChild_Folders_length]
            exact hb j (by simp [hj])
          rcases ih r.g _ q2 hk hb2 with ⟨hq, _⟩ | ⟨p0, pth, hq⟩
          · exact Or.inr ⟨p.setChild i r.f, _, by rw [hq, Folder.rebuild]⟩
          · exact Or.inr ⟨p0, pth, hq⟩

/-- Claim C5 (amended): whenever `ensureData` actually fetched (at least one Lister call), the
refreshed node's final state has just been produced by the Aggregator, so its
whole subtree satisfies the size invariant. -/
theorem ensureData_fetch_sizeInv (E : Env) (force dm : Bool) (fuel : Nat) (g : GoDeep)
    (f : Folder) (r : RunOut) (h : ensureData E force dm fuel g f = .ok r)
    (hc : 1 ≤ r.calls) : sizeInvB r.f = true := by
  cases fuel with
  | zero => simp [ensureData] at h
  | succ n =>
    simp only [ensureData] at h
    split at h
    · cases h
      simp at hc
    · split at h
      · next f1 e heq =>
        cases h
      · next f1 heq =>
        split at h
        · -- deep mode
          split at h
          · cases h
          · next q hk =>
            cases h
            simp only
            split
            · exact rebuildAt_sizeInv E.tooOld _ _
            · next hlen =>
              have hb : ∀ i ∈ List.range f1.Folders.length, i < f1.Folders.length := by
                simp
              rcases kidsLoop_result E.tooOld _ _ _ _ _ hk hb with ⟨hq, hnil⟩ | ⟨p0, pth, hq⟩
              · rw [List.range_eq_nil] at hnil
                exact absurd hnil hlen
              · rw [hq]
                exact rebuildAt_sizeInv E.tooOld p0 pth
        · -- single-node mode
          cases h
          exact rebuildAt_sizeInv E.tooOld f1 f1.path

/-- Counter accounting for the child loop: if every recursive call fetches
and satisfies the `cur`/`max` accounting relation, the loop adds its total
call count to `cur` and its call count minus the number of children to
`max`. -/
theorem kidsLoop_counts (tooOld : Int) (reca : GoDeep → Folder → Except String RunOut)
    (hr : ∀ g c r, reca g c = .ok r →
      r.g.cur = g.cur + r.calls ∧ r.g.max = g.max + r.calls - 1) :
    ∀ (idxs : List Nat) (g : GoDeep) (p : Folder) (q : RunOut),
      (∀ i ∈ idxs, i < p.Folders.length) →
      kidsLoop tooOld reca g p idxs = .ok q →
      q.g.cur = g.cur + q.calls ∧ q.g.max = g.max + q.calls - idxs.length := by
  intro idxs
  induction idxs with
  | nil =>
    intro g p q hb h
    simp only [kidsLoop] at h
    cases h
    simp
  | cons i rest ih =>
    intro g p q hb h
    have hilt : i < p.Folders.length := hb i (by simp)
    simp only [kidsLoop] at h
    split at h
    · next heq =>
      exact absurd heq (by simp [List.getElem?_eq_getElem hilt])
    · next c heq =>
      split at h
      · cases h
      · next r hrr =>
        split at h
        · cases h
        · next q2 hk =>
          cases h
          have hb2 : ∀ j ∈ rest, j < ((p.setChild i r.f).rebuild tooOld).Folders.length := by
            intro j hj
            rw [Folder.rebuild, rebuildAt_Folders_length, setChild_Folders_length]
            exact hb j (by simp [hj])
          have h1 := hr _ _ _ hrr
          have h2 := ih r.g _ q2 hb2 hk
          simp only
          constructor
          · rw [h2.1, h1.1]
            push_cast
            ring
          · rw [h2.2, h1.2]
            simp only [List.length_cons]
            push_cast
            ring

/-- With `force = true` every visited node fetches, so `cur` gains exactly
the number of Lister calls and `max` gains one fewer (the caller planned one
unit for the node itself). -/
theorem ensureData_force_counts (E : Env) :
    ∀ (fuel : Nat) (g : GoDeep) (f : Folder) (r : RunOut),
      ensureData E true true fuel g f = .ok r →
      r.g.cur = g.cur + r.calls ∧ r.g.max = g.max + r.calls - 1 := by
  intro fuel
  induction fuel with
  | zero => intro g f r h; simp [ensureData] at h
  | succ n ih =>
    intro g f r h
    simp only [ensureData] at h
    split at h
    · next hguard => simp at hguard
    · split at h
      · cases h
      · next f1 heq =>
        split at h
        case isFalse hdm => exact absurd trivial hdm
        split at h
        · cases h
        · next q hk =>
          cases h
          have hb : ∀ i ∈ List.range f1.Folders.length, i < f1.Folders.length := by simp
          have h2 := kidsLoop_counts E.tooOld _ (fun g2 c r2 hr2 => ih g2 c r2 hr2)
            (List.range f1.Folders.length) _ f1 q hb hk
          simp only [List.length_range] at h2
          constructor
          · simp only
            rw [h2.1]
            push_cast
            ring
          · simp only
            rw [h2.2]
            push_cast
            ring

/-- Claim C4 (amended): deep progress as the code actually behaves: with `force = true` (every
node fetched) and the UI's initial counters `max = 1, cur = 0`, `cur` is
incremented exactly once per fetched folder (leaves included), the last
logged report is the final `cur/max` pair, and at completion `cur = max`,
so the final reported fraction is exactly 1. -/
theorem ensureData_deep_progress (E : Env) (fuel : Nat) (f : Folder) (r : RunOut)
    (h : ensureData E true true fuel ⟨1, 0⟩ f = .ok r) :
    (r.g.cur : Int) = r.calls ∧ r.g.cur = r.g.max ∧
    r.reports.getLast? = some (r.g.cur, r.g.max) := by
  have hc := ensureData_force_counts E fuel ⟨1, 0⟩ f r h
  have hcur : (r.g.cur : Int) = r.calls := by
    have := hc.1
    simp only at this
    omega
  have hmax : r.g.cur = r.g.max := by
    have h1 := hc.1
    have h2 := hc.2
    simp only at h1 h2
    omega
  refine ⟨hcur, hmax, ?_⟩
  cases fuel with
  | zero => simp [ensureData] at h
  | succ n =>
    simp only [ensureData] at h
    split at h
    · next hguard => simp at hguard
    · split at h
      · cases h
      · next f1 heq =>
        split at h
        case isFalse hdm => exact absurd trivial hdm
        split at h
        · cases h
        · next q hk =>
          cases h
          simp only [List.getLast?_concat]

/-- Claim C2: staleness policy with horizon `H` fixed at process start
(`tooOld = now - H`): a node last refreshed `2H` ago is fetched (one Lister
call), a node last refreshed `H/2` ago is returned untouched with no Lister
call, and `force = true` always fetches. -/
theorem ensureData_staleness (E : Env) (f : Folder) (g : GoDeep) (fuel : Nat) (H : Int)
    (hH : 0 < H) (hT : E.tooOld = E.now - H) :
    (f.LastUpdate = E.now - H / 2 →
       ensureData E false false (fuel + 1) g f = .ok ⟨f, g, 0, 0, [], 0⟩) ∧
    (∀ f1, f.LastUpdate = E.now - 2 * H →
       f.getFiles E.now (E.lister f.ID) = (f1, none) →
       (ensureData E false false (fuel + 1) g f).toOption.map RunOut.calls = some 1) ∧
    (∀ f1, f.getFiles E.now (E.lister f.ID) = (f1, none) →
       (ensureData E true false (fuel + 1) g f).toOption.map RunOut.calls = some 1) := by
  refine ⟨?_, ?_, ?_⟩
  · intro hf
    simp only [ensureData]
    rw [if_pos ⟨trivial, by omega⟩]
  · intro f1 hf hgf
    simp only [ensureData]
    rw [if_neg (fun hc => absurd hc.2 (by omega))]
    rw [hgf]
    rfl
  · intro f1 hgf
    simp only [ensureData]
    rw [if_neg (fun hc => Bool.noConfusion hc.1)]
    rw [hgf]
    rfl

theorem stringAppendAssoc (a b c : String) : a ++ b ++ c = a ++ (b ++ c) := by
  apply String.ext
  simp [String.data_append]

/-! ## Concrete runs used by the claim audits -/

/-- An environment whose Lister always answers with a header-only listing. -/
def hdrOnlyEnv : Env := ⟨fun _ => .ok (gdriveListHeader ++ "\n"), 1000, 900⟩

/-- A Lister row describing one child folder named `XDir`. -/
def xdirRow : String :=
  "x" ++ delim ++ "XDir" ++ delim ++ "folder" ++ delim ++ "0" ++ delim ++ "2024-01-02 03:04:05"

/-- An environment whose Lister always returns the same single child folder. -/
def dupEnv : Env := ⟨fun _ => .ok (gdriveListHeader ++ "\n" ++ xdirRow ++ "\n"), 1000, 900⟩

/-- Refresh an empty node, then refresh the same node again (forced, as the
UI's `f` mode does): the states after one and after two fetches of the same
listing. -/
def dupRun : Option Folder := do
  let r1 ← (ensureData dupEnv false false 1 ⟨0, 0⟩ (Folder.empty.setPath "/")).toOption
  let r2 ← (ensureData dupEnv true false 1 ⟨0, 0⟩ r1.f).toOption
  some r2.f

set_option maxRecDepth 100000 in
/-- Claim C1, code bug: `getFiles` merges by unconditional append
(src/ggdu.go lines 336, 345), so re-refreshing a node that already holds the
child with identifier `x` yields two children with identifier `x` instead of
updating the existing child in place. -/
theorem getFiles_merge_appends_duplicates :
    dupRun.map (fun t => t.Folders.map Folder.ID) = some ["x", "x"] ∧
    ¬ (["x", "x"] : List String).Nodup := by
  exact ⟨by decide, by decide⟩

/-- A node refreshed `H/2 = 50` seconds ago (fresh). -/
def freshNode : Folder := .mk "" "" [] [] 0 950 0 0 0 [] "/"

/-- A node refreshed `2H = 200` seconds ago (stale). -/
def staleNode : Folder := .mk "" "" [] [] 0 800 0 0 0 [] "/"

set_option maxRecDepth 100000 in
/-- Witness for `ensureData_staleness` at `H = 100`, `now = 1000`,
`tooOld = 900`, with a working header-only Lister. -/
theorem ensureData_staleness_witness :
    ensureData hdrOnlyEnv false false 1 ⟨0, 0⟩ freshNode = .ok ⟨freshNode, ⟨0, 0⟩, 0, 0, [], 0⟩ ∧
    (ensureData hdrOnlyEnv false false 1 ⟨0, 0⟩ staleNode).toOption.map RunOut.calls = some 1 ∧
    (ensureData hdrOnlyEnv true false 1 ⟨0, 0⟩ freshNode).toOption.map RunOut.calls = some 1 := by
  have h := ensureData_staleness hdrOnlyEnv freshNode ⟨0, 0⟩ 0 100 (by norm_num) rfl
  have h2 := ensureData_staleness hdrOnlyEnv staleNode ⟨0, 0⟩ 0 100 (by norm_num) rfl
  refine ⟨h.1 (by decide), ?_, ?_⟩
  · exact h2.2.1 (staleNode.getFiles 1000 (hdrOnlyEnv.lister staleNode.ID)).1 (by decide) rfl
  · exact h.2.2 (freshNode.getFiles 1000 (hdrOnlyEnv.lister freshNode.ID)).1 rfl

/-- Witness for `getFiles_error_preserves`: a failed subprocess and a
garbage first line both leave the node exactly as it was. -/
theorem getFiles_error_preserves_witness :
    (Folder.empty.setPath "/").getFiles 1000 (.error "exec: gdrive: not found") =
      (Folder.empty.setPath "/", some ("failed to start command: " ++ "exec: gdrive: not found")) ∧
    (Folder.empty.setPath "/").getFiles 1000 (.ok "garbage") =
      (Folder.empty.setPath "/",
        some ("Unexpected header in gdrive list: " ++ (goSplit "garbage" "\n").headD "")) := by
  have h := getFiles_error_preserves 1000 (Folder.empty.setPath "/")
  exact ⟨h.1 "exec: gdrive: not found", h.2 "garbage" (by decide)⟩

/-- A child folder that is still fresh (refreshed at 5000 > tooOld = 900). -/
def freshChild (i : String) : Folder := .mk i i [] [] 0 5000 0 0 0 [] ""

/-- A stale root with a stale leaf child `A` and a stale child `B` holding
four fresh children: the tree of the C4 counterexample run. -/
def progressTree : Folder :=
  .mk "" "" [.mk "a" "A" [] [] 0 0 0 0 0 [] "",
    .mk "b" "B" [freshChild "c1", freshChild "c2", freshChild "c3", freshChild "c4"]
      [] 0 0 0 0 0 [] ""] [] 0 0 0 0 0 [] "/"

set_option maxRecDepth 100000 in
set_option maxHeartbeats 4000000 in
/-- Claim C4 counterexample: during one deep refresh of `progressTree` the
logged fractions are 1/3, then 2/7, then 3/7.  The second report is smaller
than the first (2/7 < 1/3, i.e. 2·3 < 1·7), so the sequence of reported
fractions is not non-decreasing; and the final fraction is 3/7, not 1,
because the four still-fresh children were planned but skipped, never
incrementing `cur`. -/
theorem deep_progress_not_monotone :
    (ensureData hdrOnlyEnv false true 4 ⟨1, 0⟩ progressTree).toOption.map (fun r => r.reports)
      = some [(1, 3), (2, 7), (3, 7)] ∧
    ((2 : Int) * 3 < 1 * 7) ∧ ((3 : Int) ≠ 7) := by
  exact ⟨by decide, by decide, by decide⟩

def deepWitnessRun : Except String RunOut :=
  ensureData hdrOnlyEnv true true 1 ⟨1, 0⟩ (Folder.empty.setPath "/")

def deepWitnessOut : RunOut :=
  match deepWitnessRun with
  | .ok r => r
  | .error _ => ⟨Folder.empty, ⟨1, 0⟩, 0, 0, [], 0⟩

set_option maxRecDepth 100000 in
/-- Witness for `ensureData_deep_progress` on a concrete forced deep run. -/
theorem ensureData_deep_progress_witness :
    (deepWitnessOut.g.cur : Int) = deepWitnessOut.calls ∧
    deepWitnessOut.g.cur = deepWitnessOut.g.max ∧
    deepWitnessOut.reports.getLast? = some (deepWitnessOut.g.cur, deepWitnessOut.g.max) :=
  ensureData_deep_progress hdrOnlyEnv 1 (Folder.empty.setPath "/") deepWitnessOut rfl

/-- Lister for the C5 counterexample: node `r` gains one child folder `A`;
`A` gains one 20-byte file; every other node lists empty. -/
def sizeEnv : Env :=
  ⟨fun id =>
    if id = "r" then
      .ok (gdriveListHeader ++ "\n" ++
        ("a" ++ delim ++ "A" ++ delim ++ "folder" ++ delim ++ "0" ++ delim ++
          "2024-01-02 03:04:05") ++ "\n")
    else if id = "a" then
      .ok (gdriveListHeader ++ "\n" ++
        ("fa" ++ delim ++ "fa.txt" ++ delim ++ "regular" ++ delim ++ "20" ++ delim ++
          "2024-01-02 03:04:05") ++ "\n")
    else .ok (gdriveListHeader ++ "\n"), 1000, 900⟩

/-- A root (fresh, so it is not itself refreshed) with one empty stale child
`R`: every folder satisfies the size invariant (all sizes 0). -/
def sizeTree : Folder :=
  .mk "" "" [.mk "r" "R" [] [] 0 0 0 0 0 [] ""] [] 0 5000 0 0 0 [] "/"

set_option maxRecDepth 100000 in
set_option maxHeartbeats 4000000 in
/-- Claim C5 counterexample: a deep refresh of the child `R` (path `[0]`)
fetches `R` and its new child `A`; each of the two walks the ancestor chain
itself (src/ggdu.go lines 530-535), so the root receives `A`'s delta 20 twice
— once directly and once inside `R`'s total delta — ending with `size = 40`
while its only child's subtree holds 20 bytes.  The tree no longer satisfies
the size invariant. -/
theorem deep_refresh_breaks_ancestor_sizes :
    (ensureDataAt sizeEnv false true 4 ⟨1, 0⟩ sizeTree [0]).toOption.map
      (fun t => (t.size, sizeInvB t)) = some (40, false) := by decide

def fetchWitnessRun : Except String RunOut :=
  ensureData hdrOnlyEnv false false 1 ⟨0, 0⟩ (Folder.empty.setPath "/")

def fetchWitnessOut : RunOut :=
  match fetchWitnessRun with
  | .ok r => r
  | .error _ => ⟨Folder.empty, ⟨0, 0⟩, 0, 0, [], 0⟩

set_option maxRecDepth 100000 in
/-- Witness for `ensureData_fetch_sizeInv` on a concrete single-node fetch. -/
theorem ensureData_fetch_sizeInv_witness : sizeInvB fetchWitnessOut.f = true :=
  ensureData_fetch_sizeInv hdrOnlyEnv false false 1 ⟨0, 0⟩ (Folder.empty.setPath "/")
    fetchWitnessOut rfl (by decide)

/-- Claim C6: the Aggregator is idempotent — rebuilding an already rebuilt
subtree reproduces the identical tree, hence identical `size`, `known`,
`unknown` and `folderIdx` contents on every node of the subtree. -/
theorem rebuild_idempotent (tooOld : Int) (f : Folder) :
    (f.rebuild tooOld).rebuild tooOld = f.rebuild tooOld := by
  simp only [Folder.rebuild]
  rw [rebuildAt_path]
  exact rebuildAt_idem tooOld f f.path

/-- Claim C7: the persistence round trip.  `save` keeps exactly the persisted
projection `toP`; `load` deserializes it and recomputes the derived fields by
a full rebuild, which leaves every persisted field (identifier, name, child
structure, file list, creation and last-refresh timestamps, on every node)
identical to the original tree's. -/
theorem load_save_roundtrip (tooOld : Int) (root : Folder) :
    toP (load tooOld (toP root)) = toP root := by
  simp only [load, Folder.rebuild]
  rw [toP_rebuildAt, toP_setPath, toP_fromP]

/-- Claim C8, code bug: `attachChild` derives the child's path from the
parent's path joined with the parent's own name (`f.Name`, src/ggdu.go line
540) instead of the child's name, so a child named `movies` under `/media`
(a folder named `media`) gets the path `/media/media`; the earlier variant's
`rebuild` (src/unnamed/part_000 line 409) derives `/media/movies` as the
claim states. -/
theorem attachChild_uses_parent_name :
    ((Folder.mk "m" "media" [] [] 0 0 0 0 0 [] "/media").attachChild
        (Folder.mk "c" "movies" [] [] 0 0 0 0 0 [] "")).path = "/media/media" ∧
    ("/media/media" : String) ≠ "/media/movies" ∧
    (rebuildV0At 900 (Folder.mk "m" "media"
        [Folder.mk "c" "movies" [] [] 0 0 0 0 0 [] ""] [] 0 0 0 0 0 [] "") "/media").Folders.map
        Folder.path = ["/media/movies"] := by
  exact ⟨by decide, by decide, by decide⟩

/-- Claim C9 counterexample: a malformed snapshot does not degrade to the
empty tree — `load` returns the deserialization error and `main` escalates it
with `panic(err)` (src/ggdu.go line 94), unlike an absent snapshot, which
does start empty. -/
theorem mainStartup_malformed_panics :
    mainStartup 900 (some (.error "unexpected end of JSON input")) =
      .error "unexpected end of JSON input" ∧
    mainStartup 900 none = .ok (Folder.empty.setPath "/") ∧
    mainStartup 900 (some (.error "unexpected end of JSON input")) ≠ mainStartup 900 none := by
  refine ⟨rfl, rfl, fun h => ?_⟩
  exact Except.noConfusion h

/-- Claim C9 amended: a missing snapshot starts the program from an empty
tree, but a malformed snapshot makes `load` return an error which `main`
turns into a panic — the process crashes instead of starting empty. -/
theorem mainStartup_amended (tooOld : Int) :
    (∀ e, mainStartup tooOld (some (.error e)) = .error e) ∧
    mainStartup tooOld none = .ok (Folder.empty.setPath "/") :=
  ⟨fun _ => rfl, rfl⟩

theorem fmt1_e0 (k : Int) : fmt1 k 0 = toString k ++ ".0" := by
  have h1 : (2 : Int) ^ (0 : Nat) = 1 := by norm_num
  simp only [fmt1, h1, Int.ediv_one, Int.emod_one]
  rw [if_pos (by norm_num : (2 : Int) * 0 < 1)]
  rw [Int.mul_ediv_cancel k (by norm_num : (10 : Int) ≠ 0), Int.mul_emod_left]
  rw [stringAppendAssoc]
  rfl

/-- Claim C10 counterexample: `formatSize` truncates the first division to an
integer (`float32(i / 1024)`), so 1536 bytes render as "1.0kb", while the
claim's rule — 1536 divided by 1024, rendered to one decimal place — gives
"1.5kb". -/
theorem formatSize_truncates_first_division :
    formatSize 1536 = "1.0kb" ∧ specFormatSize 1536 = "1.5kb" ∧
    ("1.0kb" : String) ≠ "1.5kb" := by
  exact ⟨by decide, by decide, by decide⟩

/-- Claim C10 amended: zero renders empty; below 1024 an integer with `b`;
from 1024 the first step is an integer division by 1024 whose quotient is
rendered to one decimal (so the sub-kilobyte remainder is truncated, e.g.
every `1024 ≤ i < 1024²` renders as `(i/1024).0kb`), with the claim's three
examples all holding. -/
theorem formatSize_amended :
    formatSize 0 = "" ∧ formatSize 512 = "512b" ∧ formatSize 2048 = "2.0kb" ∧
    formatSize (3 * 1024 * 1024) = "3.0mb" ∧
    (∀ i : Int, 0 < i → i < 1024 → formatSize i = toString i ++ "b") ∧
    (∀ i : Int, 1024 ≤ i → i < 1024 ^ 2 → formatSize i = toString (i / 1024) ++ ".0kb") := by
  refine ⟨by decide, by decide, by decide, by decide, ?_, ?_⟩
  · intro i h1 h2
    simp only [formatSize]
    rw [if_neg (by omega), if_pos h2]
  · intro i h1 h2
    have hk2 : i / 1024 < 1024 := by omega
    simp only [formatSize]
    rw [if_neg (by omega), if_neg (by omega), if_pos hk2]
    rw [fmt1_e0, stringAppendAssoc]
    rfl

/-- Witness for `formatSize_amended` at 1500 bytes and 5300 bytes. -/
theorem formatSize_amended_witness :
    formatSize 800 = toString (800 : Int) ++ "b" ∧
    formatSize 5300 = toString ((5300 : Int) / 1024) ++ ".0kb" := by
  refine ⟨?_, ?_⟩
  · exact formatSize_amended.2.2.2.2.1 800 (by norm_num) (by norm_num)
  · exact formatSize_amended.2.2.2.2.2 5300 (by norm_num) (by norm_num)
